import Mathlib

/-!
Shallow embedding of the VAE loss engines of `src/lfxai/models/losses.py`
(classes `BaseVAELoss`, `BetaHLoss`, `BtcvaeLoss` and the module-level
helpers `get_loss_f`, `_reconstruction_loss`, `_kl_normal_loss`,
`linear_annealing`, `_get_log_pz_qz_prodzi_qzCx`).

Tensors of shape (B, D) are embedded as functions `Fin B → Fin D → ℝ`,
image batches of shape (B, C, H, W) as `Fin B → Fin C → Fin H → Fin W → ℝ`.
The mutable loss-engine state (the step counter and recording cadence) is
embedded as explicit state passing.  Python exceptions (the unknown
distribution / unknown loss `ValueError`s) are embedded as `Except String`.
-/

namespace LFXAI

/-- The module-level list `LOSSES = ["betaH", "btcvae"]` of `losses.py`. -/
def LOSSES : List String := ["betaH", "btcvae"]

/-- The module-level list `RECON_DIST = ["bernoulli", "laplace", "gaussian"]`
of `losses.py`. -/
def RECON_DIST : List String := ["bernoulli", "laplace", "gaussian"]

/-- The mutable state owned by every `BaseVAELoss` instance: the training
step counter `n_train_steps` (initialised to 0 in `BaseVAELoss.__init__`)
and the recording cadence `record_loss_every`. -/
structure BaseState where
  n_train_steps : ℕ
  record_loss_every : ℕ
deriving DecidableEq, Repr

/-- `BaseVAELoss.__init__`: the step counter starts at 0. -/
def initState (record_loss_every : ℕ) : BaseState :=
  ⟨0, record_loss_every⟩

/-- `BaseVAELoss._pre_call`: increments the step counter when `is_train`,
then forwards the storer exactly when not in training mode or the
post-increment counter modulo the cadence equals 1, and otherwise replaces
it by `None`. -/
def preCall {σ : Type} (s : BaseState) (is_train : Bool) (storer : Option σ) :
    BaseState × Option σ :=
  let s' : BaseState :=
    if is_train then ⟨s.n_train_steps + 1, s.record_loss_every⟩ else s
  let storer' : Option σ :=
    if (!is_train) || (s'.n_train_steps % s.record_loss_every == 1) then storer
    else none
  (s', storer')

/-- The state evolution of a loss engine across a sequence of calls, each
flag telling whether that call is made in training mode. -/
def runState (s : BaseState) : List Bool → BaseState
  | [] => s
  | b :: rest => runState (preCall s b (none : Option Unit)).1 rest

/-- The recording gates of a loss engine across a sequence of calls made
with a non-`None` storer: entry `i` is `true` exactly when call `i`
forwards the sink (and hence appends one entry per metric key to it). -/
def runCalls (s : BaseState) : List Bool → List Bool
  | [] => []
  | b :: rest =>
    let pc := preCall s b (some ())
    pc.2.isSome :: runCalls pc.1 rest

/-- `linear_annealing` of `losses.py`: returns `fin` when
`annealing_steps == 0`, and otherwise
`min(init + (fin - init) * step / annealing_steps, fin)`.  The Python
`assert fin > init` is modelled as a precondition (every caller in the
source passes `init = 0`, `fin = 1`). -/
noncomputable def linear_annealing (init fin : ℝ) (step annealing_steps : ℕ) : ℝ :=
  if annealing_steps = 0 then fin
  else min (init + (fin - init) * (step : ℝ) / (annealing_steps : ℝ)) fin

/-- Modelled from the spec: `log_density_gaussian` lives in
`lfxai.utils.math`, which is not under `src/`.  The spec describes it as the
closed-form Gaussian log-density of `x` under mean `mu` and log-variance
`logvar`: `-0.5 * (log(2π) + logvar) - 0.5 * (x - mu)² / exp(logvar)`. -/
noncomputable def log_density_gaussian (x mu logvar : ℝ) : ℝ :=
  -0.5 * (Real.log (2 * Real.pi) + logvar) -
    0.5 * ((x - mu) ^ 2 * Real.exp (-logvar))

/-- Modelled from the spec: `matrix_log_density_gaussian` lives in
`lfxai.utils.math`, which is not under `src/`.  The spec describes it as the
B×B×D cross log-density tensor `M[i,j,d]`: the Gaussian log-density of
`latent_sample[i,d]` evaluated under `(mean[j,d], logvar[j,d])`. -/
noncomputable def matrix_log_density_gaussian (B D : ℕ)
    (latent_sample mu logvar : Fin B → Fin D → ℝ) :
    Fin B → Fin B → Fin D → ℝ :=
  fun i j d => log_density_gaussian (latent_sample i d) (mu j d) (logvar j d)

/-- Modelled from the spec: `log_importance_weight_matrix` lives in
`lfxai.utils.math`, which is not under `src/`.  The spec describes the
minibatch stratified sampling weights of Chen et al. 2018: the diagonal is
down-weighted to `1/n_data`, one off-diagonal entry per row carries the
stratification weight `(n_data - (B-1)) / (n_data * (B-1))`, the remaining
entries weigh `1/(B-1)`, and the matrix is returned in log space.  No claim
depends on the exact entries of this matrix. -/
noncomputable def log_importance_weight_matrix (B n_data : ℕ) :
    Fin B → Fin B → ℝ :=
  fun i j =>
    let N : ℝ := (n_data : ℝ)
    let M : ℝ := (B : ℝ) - 1
    let strat_weight : ℝ := (N - M) / (N * M)
    Real.log
      (if j = i then 1 / N
       else if (j : ℕ) = ((i : ℕ) + 1) % B then strat_weight
       else 1 / M)

/-- `torch.logsumexp` along a batch axis: the logarithm of the sum of the
exponentials. -/
noncomputable def logsumexp (B : ℕ) (f : Fin B → ℝ) : ℝ :=
  Real.log (∑ j, Real.exp (f j))

/-- The mean of a length-B vector, as taken by `torch.Tensor.mean()`. -/
noncomputable def batchMean (B : ℕ) (f : Fin B → ℝ) : ℝ :=
  (∑ i, f i) / (B : ℝ)

/-- The four length-B vectors returned by `_get_log_pz_qz_prodzi_qzCx`,
in the source's order `(log_pz, log_qz, log_prod_qzi, log_q_zCx)`. -/
structure DecomposeResult (B : ℕ) where
  log_pz : Fin B → ℝ
  log_qz : Fin B → ℝ
  log_prod_qzi : Fin B → ℝ
  log_q_zCx : Fin B → ℝ

/-- `_get_log_pz_qz_prodzi_qzCx` of `losses.py`: computes `log q(z|x)` and
`log p(z)` by summing per-dimension Gaussian log-densities, forms the
B×B×D cross log-density matrix (adding the importance-weight log-matrix
when `is_mss`), and reduces it by `logsumexp` over the batch axis either
after or before summing over dimensions. -/
noncomputable def get_log_pz_qz_prodzi_qzCx (B D : ℕ)
    (latent_sample mu logvar : Fin B → Fin D → ℝ) (n_data : ℕ)
    (is_mss : Bool) : DecomposeResult B :=
  let log_q_zCx : Fin B → ℝ := fun i =>
    ∑ d, log_density_gaussian (latent_sample i d) (mu i d) (logvar i d)
  let log_pz : Fin B → ℝ := fun i =>
    ∑ d, log_density_gaussian (latent_sample i d) 0 0
  let mat_log_qz : Fin B → Fin B → Fin D → ℝ :=
    if is_mss then
      fun i j d =>
        matrix_log_density_gaussian B D latent_sample mu logvar i j d +
          log_importance_weight_matrix B n_data i j
    else matrix_log_density_gaussian B D latent_sample mu logvar
  let log_qz : Fin B → ℝ := fun i =>
    logsumexp B (fun j => ∑ d, mat_log_qz i j d)
  let log_prod_qzi : Fin B → ℝ := fun i =>
    ∑ d, logsumexp B (fun j => mat_log_qz i j d)
  ⟨log_pz, log_qz, log_prod_qzi, log_q_zCx⟩

/-- The element-wise binary cross-entropy of `F.binary_cross_entropy`, with
input (reconstruction) `p` and target (data) `t`. -/
noncomputable def bce (t p : ℝ) : ℝ :=
  -(t * Real.log p + (1 - t) * Real.log (1 - p))

/-- `_reconstruction_loss` of `losses.py`: dispatches on the distribution
name, summing binary cross-entropy (bernoulli), summing squared error on
values rescaled by 255 and dividing by 255 (gaussian), or summing absolute
error, multiplying by 3 and masking an exact-zero total to zero (laplace);
the total is divided by the batch size, and an unrecognized name raises a
`ValueError`, modelled as `Except.error`. -/
noncomputable def reconstruction_loss (B C H W : ℕ)
    (data recon_data : Fin B → Fin C → Fin H → Fin W → ℝ)
    (distribution : String) : Except String ℝ :=
  if distribution = "bernoulli" then
    Except.ok
      ((∑ i, ∑ c, ∑ h, ∑ w, bce (data i c h w) (recon_data i c h w)) / (B : ℝ))
  else if distribution = "gaussian" then
    Except.ok
      (((∑ i, ∑ c, ∑ h, ∑ w,
          (recon_data i c h w * 255 - data i c h w * 255) ^ 2) / 255) / (B : ℝ))
  else if distribution = "laplace" then
    let l1 : ℝ :=
      (∑ i, ∑ c, ∑ h, ∑ w, |recon_data i c h w - data i c h w|) * 3
    let masked : ℝ := if l1 = 0 then 0 else l1
    Except.ok (masked / (B : ℝ))
  else Except.error ("Unkown distribution: " ++ distribution)

/-- `_kl_normal_loss` of `losses.py`: the per-dimension batch mean of
`0.5 * (-1 - logvar + mean² + exp(logvar))`, summed across dimensions. -/
noncomputable def kl_normal_loss (B D : ℕ) (mean logvar : Fin B → Fin D → ℝ) : ℝ :=
  let latent_kl : Fin D → ℝ := fun d =>
    0.5 * batchMean B (fun i =>
      -1 - logvar i d + mean i d ^ 2 + Real.exp (logvar i d))
  ∑ d, latent_kl d

/-- The hyperparameters of a `BtcvaeLoss` instance. -/
structure BtcvaeParams where
  n_data : ℕ
  alpha : ℝ
  beta : ℝ
  gamma : ℝ
  is_mss : Bool
  rec_dist : String
  steps_anneal : ℕ

/-- The hyperparameters of a `BetaHLoss` instance. -/
structure BetaHParams where
  beta : ℝ
  rec_dist : String
  steps_anneal : ℕ

/-- A constructed loss engine, as returned by `get_loss_f`. -/
inductive LossEngine where
  | betaH : BetaHParams → LossEngine
  | btcvae : BtcvaeParams → LossEngine

/-- The keyword arguments consumed by `get_loss_f`. -/
structure LossKwargs where
  rec_dist : String
  reg_anneal : ℕ
  betaH_B : ℝ
  btcvae_A : ℝ
  btcvae_B : ℝ
  btcvae_G : ℝ
  n_data : ℕ

/-- `get_loss_f` of `losses.py`: builds a `BetaHLoss` for `"betaH"`, a
`BtcvaeLoss` (with `is_mss=True` by default) for `"btcvae"`, and raises a
`ValueError` for any other name, modelled as `Except.error`. -/
noncomputable def get_loss_f (loss_name : String) (k : LossKwargs) :
    Except String LossEngine :=
  if loss_name = "betaH" then
    Except.ok (LossEngine.betaH ⟨k.betaH_B, k.rec_dist, k.reg_anneal⟩)
  else if loss_name = "btcvae" then
    Except.ok (LossEngine.btcvae
      ⟨k.n_data, k.btcvae_A, k.btcvae_B, k.btcvae_G, true, k.rec_dist,
        k.reg_anneal⟩)
  else Except.error ("Uknown loss : " ++ loss_name)

/-- `BetaHLoss.__call__`: runs `_pre_call` (mutating the step counter
first), computes the reconstruction loss (which may raise), the KL term and
the annealing coefficient, and returns `rec + anneal * (beta * kl)`.  The
returned state reflects the step-counter mutation even when the call
raises. -/
noncomputable def BetaHLoss_call (p : BetaHParams) (s : BaseState)
    (B C H W D : ℕ) (data recon_data : Fin B → Fin C → Fin H → Fin W → ℝ)
    (mu logvar : Fin B → Fin D → ℝ) (is_train : Bool) (storer : Option Unit) :
    BaseState × Except String ℝ :=
  let pc := preCall s is_train storer
  match reconstruction_loss B C H W data recon_data p.rec_dist with
  | Except.error e => (pc.1, Except.error e)
  | Except.ok rec_loss =>
    let kl_loss := kl_normal_loss B D mu logvar
    let anneal_reg : ℝ :=
      if is_train then linear_annealing 0 1 pc.1.n_train_steps p.steps_anneal
      else 1
    (pc.1, Except.ok (rec_loss + anneal_reg * (p.beta * kl_loss)))

/-- `BtcvaeLoss.__call__`: runs `_pre_call`, computes the reconstruction
loss (which may raise), decomposes the latent log-densities into
`mi_loss`, `tc_loss` and `dw_kl_loss`, and returns
`rec + alpha*mi + beta*tc + anneal*gamma*dwkl`.  The returned state
reflects the step-counter mutation even when the call raises. -/
noncomputable def BtcvaeLoss_call (p : BtcvaeParams) (s : BaseState)
    (B C H W D : ℕ) (data recon_batch : Fin B → Fin C → Fin H → Fin W → ℝ)
    (mu logvar latent_sample : Fin B → Fin D → ℝ) (is_train : Bool)
    (storer : Option Unit) : BaseState × Except String ℝ :=
  let pc := preCall s is_train storer
  match reconstruction_loss B C H W data recon_batch p.rec_dist with
  | Except.error e => (pc.1, Except.error e)
  | Except.ok rec_loss =>
    let r := get_log_pz_qz_prodzi_qzCx B D latent_sample mu logvar p.n_data
      p.is_mss
    let mi_loss := batchMean B (fun i => r.log_q_zCx i - r.log_qz i)
    let tc_loss := batchMean B (fun i => r.log_qz i - r.log_prod_qzi i)
    let dw_kl_loss := batchMean B (fun i => r.log_prod_qzi i - r.log_pz i)
    let anneal_reg : ℝ :=
      if is_train then linear_annealing 0 1 pc.1.n_train_steps p.steps_anneal
      else 1
    (pc.1, Except.ok (rec_loss +
      (p.alpha * mi_loss + p.beta * tc_loss +
        anneal_reg * p.gamma * dw_kl_loss)))

lemma runState_mono (l : List Bool) :
    ∀ s : BaseState, s.n_train_steps ≤ (runState s l).n_train_steps := by
  induction l with
  | nil => intro s; exact le_refl _
  | cons b rest ih =>
    intro s
    refine le_trans ?_ (ih (preCall s b (none : Option Unit)).1)
    cases b <;> simp [preCall]

/-- Claim C4: for every loss engine, the step counter starts at 0, is
monotonically non-decreasing across any sequence of calls, is incremented
exactly once per training-mode call and never otherwise, and the sink is
passed through exactly when not in training mode or the post-increment
counter modulo `record_loss_every` equals 1 (cadence at least 1, as a
zero cadence raises a `ZeroDivisionError` in the source). -/
theorem claim_C4 : ∀ k : ℕ, 1 ≤ k →
    ((initState k).n_train_steps = 0) ∧
    (∀ (n : ℕ) (b : Bool) (st : Option Unit),
      ((preCall (⟨n, k⟩ : BaseState) b st).1).n_train_steps =
        if b then n + 1 else n) ∧
    (∀ (s : BaseState) (l : List Bool),
      s.n_train_steps ≤ (runState s l).n_train_steps) ∧
    (∀ (n : ℕ) (b : Bool) (st : Option Unit),
      (preCall (⟨n, k⟩ : BaseState) b st).2 =
        if b = false ∨ ((preCall (⟨n, k⟩ : BaseState) b st).1.n_train_steps % k = 1)
        then st else none) := by
  intro k _
  refine ⟨rfl, ?_, fun s l => runState_mono l s, ?_⟩
  · intro n b st
    cases b <;> simp [preCall]
  · intro n b st
    cases b
    · simp [preCall]
    · by_cases h : (n + 1) % k = 1 <;> simp [preCall, h]

/-- Witness for claim C4 at cadence 50. -/
theorem claim_C4_witness : 1 ≤ 50 ∧ (initState 50).n_train_steps = 0 :=
  ⟨by decide, (claim_C4 50 (by decide)).1⟩

lemma runCalls_getD (l : List Bool) : ∀ (n k i : ℕ), i < l.length →
    (runCalls (⟨n, k⟩ : BaseState) l).getD i false =
      (!(l.getD i false) || ((n + (l.take (i + 1)).count true) % k == 1)) := by
  induction l with
  | nil => intro n k i h; simp at h
  | cons b rest ih =>
    intro n k i h
    cases i with
    | zero =>
      cases b
      · simp [runCalls, preCall, List.count_cons]
      · by_cases hc : (n + 1) % k = 1 <;>
          simp [runCalls, preCall, List.count_cons, hc]
    | succ j =>
      have hj : j < rest.length := by simpa using h
      cases b
      · simpa [runCalls, preCall, List.count_cons] using ih n k j hj
      · have := ih (n + 1) k j hj
        have harg : n + 1 + (rest.take (j + 1)).count true =
            n + ((rest.take (j + 1)).count true + 1) := by omega
        simpa [runCalls, preCall, List.count_cons, harg] using this

/-- Claim C3 (amended): for every cadence k ≥ 2 and a freshly constructed
engine, the sink is appended to (one entry per metric key) exactly on the
evaluation-mode calls and on the training-mode calls whose ordinal among
training calls is congruent to 1 modulo k; in particular the very first
training-mode call records. -/
theorem claim_C3 : ∀ (k : ℕ) (l : List Bool) (i : ℕ), 2 ≤ k → i < l.length →
    ((runCalls (initState k) l).getD i false =
      (!(l.getD i false) || ((l.take (i + 1)).count true % k == 1))) ∧
    (l.getD i false = true → (l.take (i + 1)).count true = 1 →
      (runCalls (initState k) l).getD i false = true) := by
  intro k l i hk hi
  have hbase := runCalls_getD l 0 k i hi
  constructor
  · simpa using hbase
  · intro htrain hcount
    have h1 : (1 : ℕ) % k = 1 := Nat.mod_eq_of_lt (by omega)
    simp only [initState]
    rw [hbase, htrain, hcount, h1]
    simp

/-- Counterexample for claim C3 as stated: with cadence
`record_loss_every = 1`, the recording test `n_train_steps % 1 == 1` is
never true, so the very first training-mode call does not record, contrary
to the claim's "training calls 1, k+1, 2k+1, ... record" for every k ≥ 1. -/
theorem claim_C3_counterexample : runCalls (initState 1) [true] = [false] := by
  decide

/-- Witness for claim C3 at cadence 2 on the call sequence
train, train, train. -/
theorem claim_C3_witness :
    2 ≤ 2 ∧ 1 < [true, true, true].length ∧
      (runCalls (initState 2) [true, true, true]).getD 1 false =
        (!([true, true, true].getD 1 false) ||
          (([true, true, true].take 2).count true % 2 == 1)) :=
  ⟨by decide, by decide, (claim_C3 2 [true, true, true] 1 (by decide) (by decide)).1⟩

/-- Claim C6 (amended): `linear_annealing` returns `fin` immediately when
`annealing_steps = 0`; otherwise, under the precondition `init < fin`, it
returns `min(init + (fin - init) * step / annealing_steps, fin)`; and
`linear_annealing 0 1` is monotonically non-decreasing in the step, equals
0 at step 0 whenever the horizon is at least 1, and equals 1 for every
step ≥ horizon. -/
theorem claim_C6 : ∀ (init fin : ℝ) (step h : ℕ),
    (linear_annealing init fin step 0 = fin) ∧
    (h ≠ 0 → init < fin →
      linear_annealing init fin step h =
        min (init + (fin - init) * (step : ℝ) / (h : ℝ)) fin) ∧
    (∀ s t : ℕ, s ≤ t → linear_annealing 0 1 s h ≤ linear_annealing 0 1 t h) ∧
    (1 ≤ h → linear_annealing 0 1 0 h = 0) ∧
    (h ≤ step → linear_annealing 0 1 step h = 1) := by
  intro init fin step h
  refine ⟨by simp [linear_annealing], ?_, ?_, ?_, ?_⟩
  · intro h0 _
    simp [linear_annealing, h0]
  · intro s t hst
    by_cases h0 : h = 0
    · simp [linear_annealing, h0]
    · have hc : (0 : ℝ) < (h : ℝ) := by
        exact_mod_cast Nat.pos_of_ne_zero h0
      have hcast : (s : ℝ) ≤ (t : ℝ) := by exact_mod_cast hst
      simp only [linear_annealing, h0, if_false, zero_add, sub_zero, one_mul]
      exact min_le_min (div_le_div_of_nonneg_right hcast hc.le) (le_refl 1)
  · intro h1
    have h0 : h ≠ 0 := by omega
    simp [linear_annealing, h0]
  · intro hsh
    by_cases h0 : h = 0
    · simp [linear_annealing, h0]
    · have hc : (0 : ℝ) < (h : ℝ) := by
        exact_mod_cast Nat.pos_of_ne_zero h0
      have hcast : (h : ℝ) ≤ (step : ℝ) := by exact_mod_cast hsh
      simp only [linear_annealing, h0, if_false, zero_add, sub_zero, one_mul]
      exact min_eq_right ((one_le_div hc).2 hcast)

/-- Counterexample for claim C6 as stated: at horizon 0 and step 0,
`linear_annealing 0 1 0 0` returns 1, not 0, so "equals 0 at step = 0"
fails for a zero horizon. -/
theorem claim_C6_counterexample :
    linear_annealing 0 1 0 0 = 1 ∧ (1 : ℝ) ≠ 0 :=
  ⟨by simp [linear_annealing], one_ne_zero⟩

/-- Witness for claim C6 at init 0, fin 1, step 2, horizon 3. -/
theorem claim_C6_witness :
    (3 : ℕ) ≠ 0 ∧ (0 : ℝ) < 1 ∧
      linear_annealing 0 1 2 3 =
        min ((0 : ℝ) + ((1 : ℝ) - 0) * ((2 : ℕ) : ℝ) / ((3 : ℕ) : ℝ)) 1 :=
  ⟨by decide, one_pos, (claim_C6 0 1 2 3).2.1 (by decide) one_pos⟩

/-- Claim C7: `_reconstruction_loss` returns, for "bernoulli", the summed
element-wise binary cross-entropy divided by the batch size; for
"gaussian", the summed squared error on values rescaled by 255, divided by
255 and then by the batch size; and for "laplace", the summed absolute
error multiplied by 3, with an exact-zero total masked to zero, divided by
the batch size. -/
theorem claim_C7 : ∀ (B C H W : ℕ)
    (data recon_data : Fin B → Fin C → Fin H → Fin W → ℝ),
    (reconstruction_loss B C H W data recon_data "bernoulli" =
      Except.ok ((∑ i, ∑ c, ∑ h, ∑ w,
        -(data i c h w * Real.log (recon_data i c h w) +
          (1 - data i c h w) * Real.log (1 - recon_data i c h w))) / (B : ℝ))) ∧
    (reconstruction_loss B C H W data recon_data "gaussian" =
      Except.ok (((∑ i, ∑ c, ∑ h, ∑ w,
        (recon_data i c h w * 255 - data i c h w * 255) ^ 2) / 255) / (B : ℝ))) ∧
    (reconstruction_loss B C H W data recon_data "laplace" =
      Except.ok ((if (∑ i, ∑ c, ∑ h, ∑ w,
          |recon_data i c h w - data i c h w|) * 3 = 0 then 0
        else (∑ i, ∑ c, ∑ h, ∑ w,
          |recon_data i c h w - data i c h w|) * 3) / (B : ℝ))) := by
  intro B C H W data recon_data
  refine ⟨?_, ?_, ?_⟩ <;> simp [reconstruction_loss, bce]

/-- Claim C8: `_kl_normal_loss` is the sum across latent dimensions of the
per-dimension batch average of `0.5 * (-1 - logvar + mean² + exp(logvar))`,
and it vanishes at mean 0, log-variance 0. -/
theorem claim_C8 : ∀ (B D : ℕ) (mean logvar : Fin B → Fin D → ℝ),
    (kl_normal_loss B D mean logvar =
      ∑ d, (∑ i, 0.5 * (-1 - logvar i d + mean i d ^ 2 +
        Real.exp (logvar i d))) / (B : ℝ)) ∧
    (kl_normal_loss B D (fun _ _ => 0) (fun _ _ => 0) = 0) := by
  intro B D mean logvar
  constructor
  · unfold kl_normal_loss batchMean
    refine Finset.sum_congr rfl (fun d _ => ?_)
    simp only [← mul_div_assoc, Finset.mul_sum]
  · unfold kl_normal_loss batchMean
    norm_num [Real.exp_zero]

/-- Claim C9: an unrecognized reconstruction-distribution name makes the
reconstruction loss fail with the invalid-configuration `ValueError`, and
an unrecognized loss-family name makes `get_loss_f` fail with the
invalid-configuration `ValueError`. -/
theorem claim_C9 : ∀ (dist loss_name : String) (B C H W : ℕ)
    (data recon_data : Fin B → Fin C → Fin H → Fin W → ℝ) (k : LossKwargs),
    (dist ∉ RECON_DIST →
      reconstruction_loss B C H W data recon_data dist =
        Except.error ("Unkown distribution: " ++ dist)) ∧
    (loss_name ∉ LOSSES →
      get_loss_f loss_name k = Except.error ("Uknown loss : " ++ loss_name)) := by
  intro dist loss_name B C H W data recon_data k
  constructor
  · intro hmem
    simp only [RECON_DIST, List.mem_cons, List.not_mem_nil, or_false,
      not_or] at hmem
    simp [reconstruction_loss, hmem.1, hmem.2.1, hmem.2.2]
  · intro hmem
    simp only [LOSSES, List.mem_cons, List.not_mem_nil, or_false,
      not_or] at hmem
    simp [get_loss_f, hmem.1, hmem.2]

/-- Witness for claim C9 with the distribution name "poisson" and the loss
name "factorK". -/
theorem claim_C9_witness :
    ("poisson" ∉ RECON_DIST ∧
      reconstruction_loss 1 1 1 1 (fun _ _ _ _ => 0) (fun _ _ _ _ => 0)
          "poisson" =
        Except.error ("Unkown distribution: " ++ "poisson")) ∧
    ("factorK" ∉ LOSSES ∧
      get_loss_f "factorK" ⟨"bernoulli", 0, 4, 1, 6, 1, 100⟩ =
        Except.error ("Uknown loss : " ++ "factorK")) :=
  ⟨⟨by decide,
    (claim_C9 "poisson" "factorK" 1 1 1 1 (fun _ _ _ _ => 0)
      (fun _ _ _ _ => 0) ⟨"bernoulli", 0, 4, 1, 6, 1, 100⟩).1 (by decide)⟩,
   ⟨by decide,
    (claim_C9 "poisson" "factorK" 1 1 1 1 (fun _ _ _ _ => 0)
      (fun _ _ _ _ => 0) ⟨"bernoulli", 0, 4, 1, 6, 1, 100⟩).2 (by decide)⟩⟩

/-- Claim C10: a training-mode call increments the step counter before any
computation that can raise, so the post-call counter is the pre-call value
plus one whether the call returns a loss or raises; with the unrecognized
distribution "poisson" the call indeed raises. -/
theorem claim_C10 : ∀ (p : BetaHParams) (s : BaseState) (B C H W D : ℕ)
    (data recon_data : Fin B → Fin C → Fin H → Fin W → ℝ)
    (mu logvar : Fin B → Fin D → ℝ) (storer : Option Unit),
    ((BetaHLoss_call p s B C H W D data recon_data mu logvar true
        storer).1.n_train_steps = s.n_train_steps + 1) ∧
    ((BetaHLoss_call ⟨p.beta, "poisson", p.steps_anneal⟩ s B C H W D data
        recon_data mu logvar true storer).2 =
      Except.error ("Unkown distribution: " ++ "poisson")) := by
  intro p s B C H W D data recon_data mu logvar storer
  constructor
  · cases hrec : reconstruction_loss B C H W data recon_data p.rec_dist <;>
      simp [BetaHLoss_call, hrec, preCall]
  · have hrec : reconstruction_loss B C H W data recon_data "poisson" =
        Except.error ("Unkown distribution: " ++ "poisson") := by
      simp [reconstruction_loss]
    simp [BetaHLoss_call, hrec]

lemma batchMean_telescope (B : ℕ) (a b c d : Fin B → ℝ) :
    batchMean B (fun i => a i - b i) + batchMean B (fun i => b i - c i) +
      batchMean B (fun i => c i - d i) = batchMean B a - batchMean B d := by
  unfold batchMean
  rw [Finset.sum_sub_distrib, Finset.sum_sub_distrib, Finset.sum_sub_distrib]
  ring

/-- Claim C2: for every batch, for both sampling modes, the three
decomposed terms `mi = mean(log_qzCx - log_qz)`,
`tc = mean(log_qz - log_prod_qzi)` and `dwkl = mean(log_prod_qzi - log_pz)`
telescope exactly to `mean(log_qzCx) - mean(log_pz)` in real arithmetic. -/
theorem claim_C2 : ∀ (B D n_data : ℕ) (is_mss : Bool)
    (latent_sample mu logvar : Fin B → Fin D → ℝ),
    batchMean B (fun i =>
      (get_log_pz_qz_prodzi_qzCx B D latent_sample mu logvar n_data
        is_mss).log_q_zCx i -
      (get_log_pz_qz_prodzi_qzCx B D latent_sample mu logvar n_data
        is_mss).log_qz i) +
    batchMean B (fun i =>
      (get_log_pz_qz_prodzi_qzCx B D latent_sample mu logvar n_data
        is_mss).log_qz i -
      (get_log_pz_qz_prodzi_qzCx B D latent_sample mu logvar n_data
        is_mss).log_prod_qzi i) +
    batchMean B (fun i =>
      (get_log_pz_qz_prodzi_qzCx B D latent_sample mu logvar n_data
        is_mss).log_prod_qzi i -
      (get_log_pz_qz_prodzi_qzCx B D latent_sample mu logvar n_data
        is_mss).log_pz i) =
    batchMean B (get_log_pz_qz_prodzi_qzCx B D latent_sample mu logvar n_data
      is_mss).log_q_zCx -
    batchMean B (get_log_pz_qz_prodzi_qzCx B D latent_sample mu logvar n_data
      is_mss).log_pz := by
  intro B D n_data is_mss latent_sample mu logvar
  exact batchMean_telescope B _ _ _ _

/-- Claim C5: the decomposition computes `log_qzCx[i]` as the summed
Gaussian log-density of sample i under its own parameters, `log_pz[i]` as
the summed standard-normal log-density, and reduces the B×B×D cross
log-density matrix (plus the importance-weight log-matrix when `is_mss`)
by log-sum-exp over the batch axis after summing over dimensions for
`log_qz[i]`, and per dimension before summing for `log_prod_qzi[i]`. -/
theorem claim_C5 : ∀ (B D n_data : ℕ) (is_mss : Bool)
    (latent_sample mu logvar : Fin B → Fin D → ℝ),
    (∀ i j d, matrix_log_density_gaussian B D latent_sample mu logvar i j d =
      log_density_gaussian (latent_sample i d) (mu j d) (logvar j d)) ∧
    (∀ i, (get_log_pz_qz_prodzi_qzCx B D latent_sample mu logvar n_data
        is_mss).log_q_zCx i =
      ∑ d, log_density_gaussian (latent_sample i d) (mu i d) (logvar i d)) ∧
    (∀ i, (get_log_pz_qz_prodzi_qzCx B D latent_sample mu logvar n_data
        is_mss).log_pz i =
      ∑ d, (-0.5 * Real.log (2 * Real.pi) - 0.5 * latent_sample i d ^ 2)) ∧
    (∀ i, (get_log_pz_qz_prodzi_qzCx B D latent_sample mu logvar n_data
        is_mss).log_qz i =
      Real.log (∑ j, Real.exp (∑ d,
        (matrix_log_density_gaussian B D latent_sample mu logvar i j d +
          (if is_mss then log_importance_weight_matrix B n_data i j
           else 0))))) ∧
    (∀ i, (get_log_pz_qz_prodzi_qzCx B D latent_sample mu logvar n_data
        is_mss).log_prod_qzi i =
      ∑ d, Real.log (∑ j, Real.exp
        (matrix_log_density_gaussian B D latent_sample mu logvar i j d +
          (if is_mss then log_importance_weight_matrix B n_data i j
           else 0)))) := by
  intro B D n_data is_mss latent_sample mu logvar
  refine ⟨fun i j d => rfl, fun i => rfl, fun i => ?_, fun i => ?_, fun i => ?_⟩
  · have hpz : (get_log_pz_qz_prodzi_qzCx B D latent_sample mu logvar n_data
        is_mss).log_pz i = ∑ d, log_density_gaussian (latent_sample i d) 0 0 :=
      rfl
    rw [hpz]
    refine Finset.sum_congr rfl (fun d _ => ?_)
    simp only [log_density_gaussian, neg_zero, Real.exp_zero, sub_zero,
      add_zero, mul_one]
  · cases is_mss <;>
      simp [get_log_pz_qz_prodzi_qzCx, logsumexp]
  · cases is_mss <;>
      simp [get_log_pz_qz_prodzi_qzCx, logsumexp]

lemma decompZeros_q_zCx : ∀ i : Fin 4,
    (get_log_pz_qz_prodzi_qzCx 4 2 (fun _ _ => 0) (fun _ _ => 0)
      (fun _ _ => 0) 100 false).log_q_zCx i =
    2 * log_density_gaussian 0 0 0 := by
  intro i
  have h : (get_log_pz_qz_prodzi_qzCx 4 2 (fun _ _ => 0) (fun _ _ => 0)
      (fun _ _ => 0) 100 false).log_q_zCx i =
      ∑ _d : Fin 2, log_density_gaussian 0 0 0 := rfl
  rw [h]
  simp [Finset.sum_const, Finset.card_univ, nsmul_eq_mul]

lemma decompZeros_pz : ∀ i : Fin 4,
    (get_log_pz_qz_prodzi_qzCx 4 2 (fun _ _ => 0) (fun _ _ => 0)
      (fun _ _ => 0) 100 false).log_pz i =
    2 * log_density_gaussian 0 0 0 := by
  intro i
  have h : (get_log_pz_qz_prodzi_qzCx 4 2 (fun _ _ => 0) (fun _ _ => 0)
      (fun _ _ => 0) 100 false).log_pz i =
      ∑ _d : Fin 2, log_density_gaussian 0 0 0 := rfl
  rw [h]
  simp [Finset.sum_const, Finset.card_univ, nsmul_eq_mul]

lemma decompZeros_qz : ∀ i : Fin 4,
    (get_log_pz_qz_prodzi_qzCx 4 2 (fun _ _ => 0) (fun _ _ => 0)
      (fun _ _ => 0) 100 false).log_qz i =
    Real.log 4 + 2 * log_density_gaussian 0 0 0 := by
  intro i
  have h : (get_log_pz_qz_prodzi_qzCx 4 2 (fun _ _ => 0) (fun _ _ => 0)
      (fun _ _ => 0) 100 false).log_qz i =
      Real.log (∑ _j : Fin 4,
        Real.exp (∑ _d : Fin 2, log_density_gaussian 0 0 0)) := rfl
  rw [h]
  simp only [Finset.sum_const, Finset.card_univ, Fintype.card_fin,
    nsmul_eq_mul, Nat.cast_ofNat]
  rw [Real.log_mul (by norm_num) (Real.exp_ne_zero _), Real.log_exp]

lemma decompZeros_prod : ∀ i : Fin 4,
    (get_log_pz_qz_prodzi_qzCx 4 2 (fun _ _ => 0) (fun _ _ => 0)
      (fun _ _ => 0) 100 false).log_prod_qzi i =
    2 * (Real.log 4 + log_density_gaussian 0 0 0) := by
  intro i
  have h : (get_log_pz_qz_prodzi_qzCx 4 2 (fun _ _ => 0) (fun _ _ => 0)
      (fun _ _ => 0) 100 false).log_prod_qzi i =
      ∑ _d : Fin 2,
        Real.log (∑ _j : Fin 4, Real.exp (log_density_gaussian 0 0 0)) := rfl
  rw [h]
  simp only [Finset.sum_const, Finset.card_univ, Fintype.card_fin,
    nsmul_eq_mul, Nat.cast_ofNat]
  rw [Real.log_mul (by norm_num) (Real.exp_ne_zero _), Real.log_exp]

lemma decompZeros_mi :
    batchMean 4 (fun i =>
      (get_log_pz_qz_prodzi_qzCx 4 2 (fun _ _ => 0) (fun _ _ => 0)
        (fun _ _ => 0) 100 false).log_q_zCx i -
      (get_log_pz_qz_prodzi_qzCx 4 2 (fun _ _ => 0) (fun _ _ => 0)
        (fun _ _ => 0) 100 false).log_qz i) = -Real.log 4 := by
  simp only [decompZeros_q_zCx, decompZeros_qz]
  unfold batchMean
  simp only [Finset.sum_const, Finset.card_univ, Fintype.card_fin,
    nsmul_eq_mul, Nat.cast_ofNat]
  ring

lemma decompZeros_tc :
    batchMean 4 (fun i =>
      (get_log_pz_qz_prodzi_qzCx 4 2 (fun _ _ => 0) (fun _ _ => 0)
        (fun _ _ => 0) 100 false).log_qz i -
      (get_log_pz_qz_prodzi_qzCx 4 2 (fun _ _ => 0) (fun _ _ => 0)
        (fun _ _ => 0) 100 false).log_prod_qzi i) = -Real.log 4 := by
  simp only [decompZeros_qz, decompZeros_prod]
  unfold batchMean
  simp only [Finset.sum_const, Finset.card_univ, Fintype.card_fin,
    nsmul_eq_mul, Nat.cast_ofNat]
  ring

lemma decompZeros_dwkl :
    batchMean 4 (fun i =>
      (get_log_pz_qz_prodzi_qzCx 4 2 (fun _ _ => 0) (fun _ _ => 0)
        (fun _ _ => 0) 100 false).log_prod_qzi i -
      (get_log_pz_qz_prodzi_qzCx 4 2 (fun _ _ => 0) (fun _ _ => 0)
        (fun _ _ => 0) 100 false).log_pz i) = 2 * Real.log 4 := by
  simp only [decompZeros_prod, decompZeros_pz]
  unfold batchMean
  simp only [Finset.sum_const, Finset.card_univ, Fintype.card_fin,
    nsmul_eq_mul, Nat.cast_ofNat]
  ring

/-- Counterexample for claim C1 as stated: at the all-zero input with
`is_mss = False` the code's `log_qz` is `log 4` larger than `log_qzCx`
(the estimator omits any batch-size normalization), so the four vectors are
not all equal. -/
theorem claim_C1_counterexample :
    (get_log_pz_qz_prodzi_qzCx 4 2 (fun _ _ => 0) (fun _ _ => 0)
      (fun _ _ => 0) 100 false).log_qz 0 ≠
    (get_log_pz_qz_prodzi_qzCx 4 2 (fun _ _ => 0) (fun _ _ => 0)
      (fun _ _ => 0) 100 false).log_q_zCx 0 := by
  rw [decompZeros_qz 0, decompZeros_q_zCx 0]
  intro hcontra
  have hpos : (0 : ℝ) < Real.log 4 := Real.log_pos (by norm_num)
  linarith

/-- Claim C1 (amended): at batch size 4, latent dimension 2, all-zero
latent sample, mean and logvar, `n_data = 100`, `is_mss = False`, the code
yields `log_qzCx = log_pz` pointwise while `log_qz` exceeds them by
`log 4` and `log_prod_qzi` by `2·log 4`; hence `mi = tc = -log 4`,
`dwkl = 2·log 4`, their sum is exactly 0, and with `α = β = γ = 1` and
annealing coefficient 1 (here `steps_anneal = 0`) the decomposed loss
equals the reconstruction loss alone. -/
theorem claim_C1 :
    (∀ i, (get_log_pz_qz_prodzi_qzCx 4 2 (fun _ _ => 0) (fun _ _ => 0)
        (fun _ _ => 0) 100 false).log_q_zCx i =
      (get_log_pz_qz_prodzi_qzCx 4 2 (fun _ _ => 0) (fun _ _ => 0)
        (fun _ _ => 0) 100 false).log_pz i) ∧
    (∀ i, (get_log_pz_qz_prodzi_qzCx 4 2 (fun _ _ => 0) (fun _ _ => 0)
        (fun _ _ => 0) 100 false).log_qz i =
      (get_log_pz_qz_prodzi_qzCx 4 2 (fun _ _ => 0) (fun _ _ => 0)
        (fun _ _ => 0) 100 false).log_pz i + Real.log 4) ∧
    (∀ i, (get_log_pz_qz_prodzi_qzCx 4 2 (fun _ _ => 0) (fun _ _ => 0)
        (fun _ _ => 0) 100 false).log_prod_qzi i =
      (get_log_pz_qz_prodzi_qzCx 4 2 (fun _ _ => 0) (fun _ _ => 0)
        (fun _ _ => 0) 100 false).log_pz i + 2 * Real.log 4) ∧
    (batchMean 4 (fun i =>
      (get_log_pz_qz_prodzi_qzCx 4 2 (fun _ _ => 0) (fun _ _ => 0)
        (fun _ _ => 0) 100 false).log_q_zCx i -
      (get_log_pz_qz_prodzi_qzCx 4 2 (fun _ _ => 0) (fun _ _ => 0)
        (fun _ _ => 0) 100 false).log_qz i) = -Real.log 4) ∧
    (batchMean 4 (fun i =>
      (get_log_pz_qz_prodzi_qzCx 4 2 (fun _ _ => 0) (fun _ _ => 0)
        (fun _ _ => 0) 100 false).log_qz i -
      (get_log_pz_qz_prodzi_qzCx 4 2 (fun _ _ => 0) (fun _ _ => 0)
        (fun _ _ => 0) 100 false).log_prod_qzi i) = -Real.log 4) ∧
    (batchMean 4 (fun i =>
      (get_log_pz_qz_prodzi_qzCx 4 2 (fun _ _ => 0) (fun _ _ => 0)
        (fun _ _ => 0) 100 false).log_prod_qzi i -
      (get_log_pz_qz_prodzi_qzCx 4 2 (fun _ _ => 0) (fun _ _ => 0)
        (fun _ _ => 0) 100 false).log_pz i) = 2 * Real.log 4) ∧
    (∀ (C H W : ℕ) (data recon_batch : Fin 4 → Fin C → Fin H → Fin W → ℝ)
       (dist : String) (s : BaseState) (is_train : Bool)
       (storer : Option Unit),
      (BtcvaeLoss_call ⟨100, 1, 1, 1, false, dist, 0⟩ s 4 C H W 2 data
        recon_batch (fun _ _ => 0) (fun _ _ => 0) (fun _ _ => 0) is_train
        storer).2 = reconstruction_loss 4 C H W data recon_batch dist) := by
  refine ⟨?_, ?_, ?_, decompZeros_mi, decompZeros_tc, decompZeros_dwkl, ?_⟩
  · intro i
    rw [decompZeros_q_zCx i, decompZeros_pz i]
  · intro i
    rw [decompZeros_qz i, decompZeros_pz i]
    ring
  · intro i
    rw [decompZeros_prod i, decompZeros_pz i]
    ring
  · intro C H W data recon_batch dist s is_train storer
    cases hrec : reconstruction_loss 4 C H W data recon_batch dist with
    | error e => simp [BtcvaeLoss_call, hrec]
    | ok v =>
      have hann : ∀ n : ℕ, linear_annealing 0 1 n 0 = (1 : ℝ) := by
        intro n; simp [linear_annealing]
      simp only [BtcvaeLoss_call, hrec, decompZeros_mi, decompZeros_tc,
        decompZeros_dwkl, hann, ite_self, one_mul]
      rw [Except.ok.injEq]
      ring

end LFXAI
